import Mathlib

/-!
Verification of the retrieval-and-routing engine of the trustbit RAG
challenge repository.

Shallow embedding of:
  - src/trustbit_rag_challenge/router.py     (RAGRouter)
  - src/trustbit_rag_challenge/retriever.py  (ChromaRetriever)
  - src/trustbit_rag_challenge/llm/client.py (LLMClient fallback contract)
  - src/trustbit_rag_challenge/schemas.py    (DTOs)
  - src/trustbit_rag_challenge/enums.py      (QuestionKind)

External collaborators (ChromaDB, the BM25 library scoring function, the
cross-encoder reranker, the OpenAI client) are modelled as parameters of an
environment structure `Env`; calls that can raise an exception are modelled
with `Except String`.  `LLMClient.answer_question` and
`LLMClient.rephrase_comparative_question` catch all exceptions internally
(client.py lines 220-228 and 265-284) and are therefore modelled as total
functions.
-/

/-- QuestionKind enum, enums.py lines 4-30. -/
inductive QuestionKind where
  | NUMBER
  | NAME
  | BOOLEAN
  | NAMES
  | COMPARATIVE
deriving DecidableEq

/-- The union type of `ClientResponse.value` in schemas.py
(`str | Literal["N/A"] | float | int | bool | list[str]`); Python ints and
floats are both modelled as rationals. -/
inductive AnswerValue where
  | str (s : String)
  | num (q : ℚ)
  | bool (b : Bool)
  | list (l : List String)
deriving DecidableEq

/-- ClientResponse DTO, schemas.py. -/
structure ClientResponse where
  value : AnswerValue
  relevant_pages : List Int
  step_by_step_analysis : String
  reasoning_summary : String
deriving DecidableEq

/-- A reference dict `{"pdf_sha1": ..., "page_index": ...}` as built by
`RAGRouter._validate_references` (router.py line 90). -/
structure Reference where
  pdf_sha1 : String
  page_index : Int
deriving DecidableEq

/-- Chunk metadata stored in the vector store (fields read by
retriever.py lines 356-357). -/
structure ChunkMeta where
  page_index : Int
  source : String
deriving DecidableEq

/-- A LangChain Document: page content plus the metadata fields this
pipeline reads.  The indexing stage always writes `page_index` and `source`
into the metadata, so they are modelled as always present. -/
structure Document where
  page_content : String
  page_index : Int
  source : String
deriving DecidableEq

/-- A chunk dict returned by `ChromaRetriever.retrieve`
(retriever.py lines 349-359). -/
structure Chunk where
  text : String
  score : ℚ
  page_index : Int
  source : String
deriving DecidableEq

/-- RouterResponse DTO, schemas.py. -/
structure RouterResponse where
  value : AnswerValue
  references : List Reference
deriving DecidableEq

/-! ### Python string semantics helpers -/

/-- Python `a in b` needs: is `p` an initial segment of `l`. -/
def leadsList (p l : List Char) : Bool :=
  match p, l with
  | [], _ => true
  | _ :: _, [] => false
  | a :: as_, b :: bs => a == b && leadsList as_ bs

/-- Does `needle` occur as a contiguous run inside `hay`. -/
def containsList (needle : List Char) : List Char → Bool
  | [] => needle.isEmpty
  | b :: bs => leadsList needle (b :: bs) || containsList needle bs

/-- Python substring containment `a in b` on strings. -/
def pyIn (a b : String) : Bool := containsList a.data b.data

/-- Python `str.strip('"')`: remove leading and trailing double quotes. -/
def stripQuotes (s : String) : String :=
  String.mk (((s.data.dropWhile (· == '"')).reverse.dropWhile (· == '"')).reverse)

/-- Python `str.strip()`: remove leading and trailing whitespace. -/
def pyStripWS (s : String) : String :=
  String.mk (((s.data.dropWhile Char.isWhitespace).reverse.dropWhile
    Char.isWhitespace).reverse)

/-- ASCII lower-casing of one character (Python `str.lower` restricted to
ASCII, which is what company names and questions use). -/
def lowerChar (c : Char) : Char :=
  if 'A' ≤ c && c ≤ 'Z' then Char.ofNat (c.toNat + 32) else c

/-- ASCII upper-casing of one character. -/
def upperChar (c : Char) : Char :=
  if 'a' ≤ c && c ≤ 'z' then Char.ofNat (c.toNat - 32) else c

/-- Python `str.lower()`. -/
def pyLower (s : String) : String := String.mk (s.data.map lowerChar)

/-- Python `str.upper()`. -/
def pyUpper (s : String) : String := String.mk (s.data.map upperChar)

/-- Python `str(value)` for the values a `ClientResponse` can carry.  The
rendering of non-integer numbers approximates Python float repr; no claim
depends on it.  Integers and the other branches are rendered exactly as
Python does. -/
def pyShowValue : AnswerValue → String
  | .str s => s
  | .num q => if q.den = 1 then toString q.num
              else toString q.num ++ "/" ++ toString q.den
  | .bool b => if b then "True" else "False"
  | .list l =>
      "[" ++ String.intercalate ", " (l.map (fun s => "'" ++ s ++ "'")) ++ "]"

/-- Python `query.split("?")[0]` (router.py line 198): the text before the
first question mark, or the whole string when there is none. -/
def takeUntilQmark (s : String) : String :=
  String.mk (s.data.takeWhile (· ≠ '?'))

/-- Python `re` word character over the ASCII range (`\w`). -/
def isWordChar (c : Char) : Bool := c.isAlphanum || c == '_'

/-- Accumulator worker for `tokenize`; `acc` holds the current word
reversed. -/
def tokenizeAux : List Char → List Char → List String
  | acc, [] => if acc.isEmpty then [] else [String.mk acc.reverse]
  | acc, c :: cs =>
    if isWordChar c then tokenizeAux (c :: acc) cs
    else if acc.isEmpty then tokenizeAux [] cs
    else String.mk acc.reverse :: tokenizeAux [] cs

/-- The tokenization `re.findall(r"\w+", text.lower())` used both for the
corpus (retriever.py line 183) and for the query (retriever.py line 219). -/
def tokenize (s : String) : List String := tokenizeAux [] (pyLower s).data

/-- Python lookup in an association-list model of a dict: the last binding
of a key wins, as in a dict built by repeated insertion. -/
def pyDictGet {α : Type} (m : List (String × α)) (k : String) : Option α :=
  (m.reverse.find? (fun p => p.1 == k)).map (·.2)

/-! ### Reference validation (router.py lines 45-92) -/

/-- Truth of `str(value).upper() == "N/A"` (router.py line 79): only a
string value can render to "N/A" in any casing; `str` of a bool, number or
list never does. -/
def isNAString : AnswerValue → Bool
  | .str s => pyUpper s == "N/A"
  | _ => false

/-- The negative-answer test of router.py lines 78-82. -/
def isNegativeAnswer (kind : QuestionKind) (value : AnswerValue) : Bool :=
  isNAString value
    || (kind == .BOOLEAN && value == .bool false)
    || (kind == .NAMES && value == .list [])

/-- RAGRouter._validate_references, router.py lines 45-92. -/
def validate_references (kind : QuestionKind) (chunks : List Chunk)
    (client_response : ClientResponse) : List Reference :=
  if client_response.relevant_pages = [] then []
  else if isNegativeAnswer kind client_response.value then []
  else chunks.filterMap (fun c =>
    if c.page_index ∈ client_response.relevant_pages then
      some ⟨c.source, c.page_index⟩
    else none)

/-- LLMClient._get_fallback_response, client.py lines 99-134. -/
def get_fallback_response (kind : QuestionKind) (error_msg : String) :
    ClientResponse :=
  let value : AnswerValue :=
    if kind = .BOOLEAN then .bool false
    else if kind = .NAMES then .list []
    else .str "N/A"
  ⟨value, [], "", error_msg⟩

/-! ### Company extraction (router.py lines 94-114) -/

/-- The loop body of `RAGRouter._extract_companies`: iterate the known
company names in their given order, keep those occurring as substrings of
the question, stripping double quotes from each kept name. -/
def extract_loop (text : String) : List String → List String
  | [] => []
  | company :: rest =>
    if pyIn company text then stripQuotes company :: extract_loop text rest
    else extract_loop text rest

/-- RAGRouter._extract_companies over `self.known_companies =
retriever.company_map.keys()` — the keys in dict insertion order. -/
def extract_companies (company_map : List (String × String)) (text : String) :
    List String :=
  extract_loop text (company_map.map (·.1))

/-! ### Collaborator environment -/

/-- The external collaborators of the retriever and router.  Calls that the
Python code can see raise an exception are modelled with `Except String`;
the two LLMClient entry points catch every exception internally
(client.py lines 220-228 and 265-284) and so are total.
`bm25_get_scores corpus query_tokens` models `BM25Okapi(corpus).get_scores`
(the rank_bm25 library, a pure scoring computation). -/
structure Env where
  company_map : List (String × String)
  vector_search : String → String → Nat → Except String (List Document)
  chroma_get : String → Except String (List String × List ChunkMeta)
  bm25_get_scores : List (List String) → List String → List ℚ
  reranker_predict : List (String × String) → Except String (List ℚ)
  llm_answer : String → String → QuestionKind → ClientResponse
  llm_rephrase : String → List String → List (String × String)

/-! ### BM25 candidate fetch (retriever.py lines 145-236) -/

/-- ChromaRetriever._get_bm25_index, retriever.py lines 145-188, without
the cache (the cache is write-once per key and the fetch is deterministic,
so caching is observationally irrelevant).  A Chroma failure is caught and
yields `none`; an empty document or metadata list yields `none`. -/
def get_bm25_index (env : Env) (sha1 : String) :
    Option (List String × List ChunkMeta) :=
  match env.chroma_get sha1 with
  | .error _ => none
  | .ok (raw_chunks, metadatas) =>
    if raw_chunks = [] ∨ metadatas = [] then none
    else some (raw_chunks, metadatas)

/-- Indexing into the score array: `scores[i]`.  All uses keep `i` inside
bounds, the default is never read under the library length contract. -/
def scoreAt (scores : List ℚ) (i : Nat) : ℚ := scores.getD i 0

/-- Python `sorted(range(len(scores)), key=lambda i: scores[i],
reverse=True)` is a stable descending sort, i.e. index `i` precedes `j`
exactly when `scores[i] > scores[j]`, or the scores tie and `i` comes first
in the original order. -/
def bm25Before (scores : List ℚ) (i j : Nat) : Prop :=
  scoreAt scores j < scoreAt scores i ∨
    (scoreAt scores i = scoreAt scores j ∧ i ≤ j)

instance (scores : List ℚ) : DecidableRel (bm25Before scores) := fun i j =>
  decidable_of_iff
    (scoreAt scores j < scoreAt scores i ∨
      (scoreAt scores i = scoreAt scores j ∧ i ≤ j)) Iff.rfl

instance (scores : List ℚ) : IsTotal Nat (bm25Before scores) := by
  constructor
  intro i j
  rcases lt_trichotomy (scoreAt scores i) (scoreAt scores j) with h | h | h
  · exact Or.inr (Or.inl h)
  · rcases Nat.le_total i j with hij | hij
    · exact Or.inl (Or.inr ⟨h, hij⟩)
    · exact Or.inr (Or.inr ⟨h.symm, hij⟩)
  · exact Or.inl (Or.inl h)

instance (scores : List ℚ) : IsTrans Nat (bm25Before scores) := by
  constructor
  intro i j k hij hjk
  rcases hij with h1 | ⟨h1, h1le⟩ <;> rcases hjk with h2 | ⟨h2, h2le⟩
  · exact Or.inl (h2.trans h1)
  · exact Or.inl (h2 ▸ h1)
  · exact Or.inl (h1 ▸ h2)
  · exact Or.inr ⟨h1.trans h2, h1le.trans h2le⟩

/-- ChromaRetriever._fetch_bm25_candidates, retriever.py lines 190-236.
The query is tokenized with the same `tokenize` used for the corpus; the
indices of all scores are sorted descending (stable), cut at `fetch_k`,
and entries with score `<= 0` are skipped.  Out-of-range indices (ruled
out by the BM25 library contract `len(scores) = len(corpus)` and the
Chroma contract `len(metadatas) = len(documents)`) are skipped. -/
def fetch_bm25_candidates (env : Env) (query sha1 : String) (fetch_k : Nat) :
    List Document :=
  match get_bm25_index env sha1 with
  | none => []
  | some (raw_chunks, metadatas) =>
    let corpus := raw_chunks.map tokenize
    let scores := env.bm25_get_scores corpus (tokenize query)
    let top_indices :=
      (List.insertionSort (bm25Before scores) (List.range scores.length)).take
        fetch_k
    top_indices.filterMap (fun idx =>
      if scoreAt scores idx ≤ 0 then none
      else
        match raw_chunks.get? idx, metadatas.get? idx with
        | some t, some m => some ⟨t, m.page_index, m.source⟩
        | _, _ => none)

/-! ### Vector candidate fetch (retriever.py lines 238-271) -/

/-- ChromaRetriever._fetch_vector_candidates: a vector search failure is
caught and degrades to an empty pool. -/
def fetch_vector_candidates (env : Env) (query sha1 : String)
    (fetch_k : Nat) : List Document :=
  match env.vector_search query sha1 fetch_k with
  | .error _ => []
  | .ok docs => docs

/-! ### Hybrid retrieve (retriever.py lines 273-361) -/

/-- One step of filling `unique_docs_map[doc.page_content] = doc`
(retriever.py lines 321-326): a Python dict keeps the position of the
first insertion of a key and the value of the last. -/
def dict_insert (m : List (String × Document)) (d : Document) :
    List (String × Document) :=
  if m.any (fun p => p.1 == d.page_content) then
    m.map (fun p => if p.1 == d.page_content then (p.1, d) else p)
  else m ++ [(d.page_content, d)]

/-- Merge and deduplicate the BM25 pool then the vector pool by exact
passage text, last writer wins (retriever.py lines 320-328). -/
def merge_candidates (bm25_docs vector_docs : List Document) :
    List Document :=
  ((bm25_docs ++ vector_docs).foldl dict_insert []).map (·.2)

/-- Candidate pool paired with reranker scores (retriever.py lines
334-342).  `reranker.predict` is the one collaborator call in the module
that is not wrapped in try/except: its failure propagates.  A score list
shorter than the candidate list would make `rerank_scores[i]` raise
IndexError, also propagating. -/
def scored_candidates (env : Env) (query sha1 : String) (fetch_k : Nat) :
    Except String (List (Document × ℚ)) :=
  let vector_docs := fetch_vector_candidates env query sha1 fetch_k
  let bm25_docs := fetch_bm25_candidates env query sha1 fetch_k
  let candidates := merge_candidates bm25_docs vector_docs
  if candidates = [] then .ok []
  else
    match env.reranker_predict
        (candidates.map (fun d => (query, d.page_content))) with
    | .error e => .error e
    | .ok rerank_scores =>
      if rerank_scores.length < candidates.length then .error "IndexError"
      else .ok (candidates.zip rerank_scores)

/-- Python `round(x, 4)` modelled as rounding half up to four decimal
places (Python rounds exact half-ties to even; no claim depends on the
tie direction and both are monotone). -/
def round4 (q : ℚ) : ℚ := ((q * 10000 + 1 / 2).floor : ℚ) / 10000

/-- Python `reranked_results.sort(key=lambda x: x["score"], reverse=True)`
is a stable descending sort: candidate `a` may precede `b` exactly when
`b`'s score is at most `a`'s. -/
def scoreDesc (a b : Document × ℚ) : Prop := b.2 ≤ a.2

instance : DecidableRel scoreDesc := fun a b =>
  decidable_of_iff (b.2 ≤ a.2) Iff.rfl

instance : IsTotal (Document × ℚ) scoreDesc :=
  ⟨fun a b => le_total b.2 a.2⟩

instance : IsTrans (Document × ℚ) scoreDesc :=
  ⟨fun _ _ _ hab hbc => le_trans hbc hab⟩

/-- Formatting of one final result (retriever.py lines 349-359). -/
def format_chunk (p : Document × ℚ) : Chunk :=
  ⟨p.1.page_content, round4 p.2, p.1.page_index, p.1.source⟩

/-- ChromaRetriever.retrieve, retriever.py lines 273-361.  An unresolved
company name (including a falsy empty sha1) returns an empty list, an
empty merged pool returns an empty list, otherwise the reranked pool is
sorted by score descending (stable), cut at `top_k` and formatted. -/
def retrieve (env : Env) (query company_name : String)
    (top_k fetch_k : Nat) : Except String (List Chunk) :=
  match pyDictGet env.company_map company_name with
  | none => .ok []
  | some target_sha1 =>
    if target_sha1 = "" then .ok []
    else
      match scored_candidates env query target_sha1 fetch_k with
      | .error e => .error e
      | .ok scored =>
        .ok (((List.insertionSort scoreDesc scored).take top_k).map
          format_chunk)

/-! ### Router (router.py lines 116-273) -/

/-- The aggregated context string of router.py lines 210-215: each chunk
prefixed by its page number, joined with blank lines. -/
def aggregate_context (chunks : List Chunk) : String :=
  String.intercalate "\n\n" (chunks.map (fun c =>
    "--- Page " ++ toString c.page_index ++ " ---\n" ++ c.text))

/-- RAGRouter._handle_single, router.py lines 166-219.  `retrieve` is not
wrapped in try/except, so its failure propagates; the LLM answer call is
total (it catches internally). -/
def handle_single (env : Env) (company query : String)
    (kind : QuestionKind) : Except String (ClientResponse × List Reference) :=
  let question := takeUntilQmark query
  match retrieve env question company 5 30 with
  | .error e => .error e
  | .ok chunks =>
    if chunks = [] then
      .ok (get_fallback_response kind ("No information found for " ++ company),
        [])
    else
      let answer := env.llm_answer query (aggregate_context chunks) kind
      .ok (answer, validate_references kind chunks answer)

/-- The per-company sub-question: router.py lines 250-259.  The rephrased
questions are keyed by stripped company name in a dict (last binding wins)
and looked up with the original question as default. -/
def rephrased_query (env : Env) (query : String) (companies : List String)
    (company : String) : String :=
  match pyDictGet ((env.llm_rephrase query companies).map
      (fun p => (pyStripWS p.1, p.2))) company with
  | some q => q
  | none => query

/-- The summary line of router.py line 264: company name and extracted
value only. -/
def summary_line (company : String) (ans : ClientResponse) : String :=
  "Company: " ++ company ++ "\nExtracted Data: " ++ pyShowValue ans.value
    ++ "\n"

/-- The `for company in companies` loop of router.py lines 258-266: each
company's sub-call is made in input order with no try/except, so the
first failing sub-call aborts the loop; on success the summary lines and
the concatenated references are accumulated in input order. -/
def comparative_loop (env : Env) (sub_query : String → String) :
    List String → Except String (List String × List Reference)
  | [] => .ok ([], [])
  | company :: rest =>
    match handle_single env company (sub_query company) .NUMBER with
    | .error e => .error e
    | .ok (ans, references) =>
      match comparative_loop env sub_query rest with
      | .error e => .error e
      | .ok (lines, all_references) =>
        .ok (summary_line company ans :: lines, references ++ all_references)

/-- RAGRouter._handle_comparative, router.py lines 221-273. -/
def handle_comparative (env : Env) (companies : List String)
    (query : String) : Except String (ClientResponse × List Reference) :=
  match comparative_loop env (rephrased_query env query companies)
      companies with
  | .error e => .error e
  | .ok (individual_results, all_references) =>
    let aggregated_context := String.intercalate "\n" individual_results
    .ok (env.llm_answer query aggregated_context .COMPARATIVE,
      all_references)

/-- RAGRouter.answer_question, router.py lines 116-164: route on the
number of extracted companies. -/
def answer_question (env : Env) (question_text : String)
    (question_kind : QuestionKind) : Except String RouterResponse :=
  match extract_companies env.company_map question_text with
  | [company] =>
    match handle_single env company question_text question_kind with
    | .error e => .error e
    | .ok (ans, refs) => .ok ⟨ans.value, refs⟩
  | [] =>
    .ok ⟨(get_fallback_response question_kind
      "Company not identified in question").value, []⟩
  | companies =>
    match handle_comparative env companies question_text with
    | .error e => .error e
    | .ok (ans, refs) => .ok ⟨ans.value, refs⟩

/-! ### Helper lemmas -/

/-- A `filterMap` whose function returns `some (f a)` exactly on the
elements satisfying `p` is the `map` of the `filter`. -/
theorem filterMap_eq_map_filter {α β : Type} (g : α → Option β) (f : α → β)
    (p : α → Bool) (l : List α)
    (h : ∀ a ∈ l, g a = if p a then some (f a) else none) :
    l.filterMap g = (l.filter p).map f := by
  induction l with
  | nil => rfl
  | cons a l ih =>
    have ha := h a (List.mem_cons_self a l)
    have hrest : ∀ b ∈ l, g b = if p b then some (f b) else none :=
      fun b hb => h b (List.mem_cons_of_mem a hb)
    by_cases hp : p a
    · rw [List.filterMap_cons, ha, if_pos hp, List.filter_cons_of_pos hp,
        List.map_cons, ih hrest]
    · rw [List.filterMap_cons, ha, if_neg hp,
        List.filter_cons_of_neg (by simpa using hp), ih hrest]

/-- round4 is monotone, so sorting by raw reranker score descending also
sorts the rounded scores descending. -/
theorem rat_floor_eq_floor (q : ℚ) : q.floor = ⌊q⌋ :=
  (Rat.floor_def' q).trans Rat.floor_def.symm

theorem round4_mono {a b : ℚ} (h : a ≤ b) : round4 a ≤ round4 b := by
  unfold round4
  have h2 : (a * 10000 + 1 / 2).floor ≤ (b * 10000 + 1 / 2).floor := by
    rw [rat_floor_eq_floor, rat_floor_eq_floor]
    exact Int.floor_le_floor (by nlinarith)
  have h3 : (((a * 10000 + 1 / 2).floor : ℤ) : ℚ)
      ≤ (((b * 10000 + 1 / 2).floor : ℤ) : ℚ) := by exact_mod_cast h2
  linarith

/-! ### C1 -/

/-- C1: every reference returned by `validate_references` has a
`page_index` claimed by the LLM response and present on an evidence chunk
actually shown, and its `pdf_sha1` is taken from that matching chunk; no
reference to a page absent from the shown evidence is ever returned. -/
theorem c1_validated_reference_backed (kind : QuestionKind)
    (chunks : List Chunk) (resp : ClientResponse) (r : Reference)
    (h : r ∈ validate_references kind chunks resp) :
    r.page_index ∈ resp.relevant_pages ∧
      ∃ c ∈ chunks, c.page_index = r.page_index ∧ c.source = r.pdf_sha1 := by
  unfold validate_references at h
  split_ifs at h with h1 h2
  · exact absurd h (List.not_mem_nil r)
  · exact absurd h (List.not_mem_nil r)
  · rcases List.mem_filterMap.mp h with ⟨c, hc, hfc⟩
    by_cases hp : c.page_index ∈ resp.relevant_pages
    · rw [if_pos hp] at hfc
      cases hfc
      exact ⟨hp, c, hc, rfl, rfl⟩
    · rw [if_neg hp] at hfc
      cases hfc

/-- Witness for C1 at a concrete input. -/
theorem c1_witness :
    ((⟨"s", 2⟩ : Reference) ∈ validate_references .NAME
        [⟨"t", 0, 2, "s"⟩] ⟨.str "yes", [2], "", ""⟩) ∧
      ((⟨"s", 2⟩ : Reference).page_index ∈
          (⟨.str "yes", [2], "", ""⟩ : ClientResponse).relevant_pages ∧
        ∃ c ∈ [(⟨"t", 0, 2, "s"⟩ : Chunk)],
          c.page_index = (⟨"s", 2⟩ : Reference).page_index ∧
            c.source = (⟨"s", 2⟩ : Reference).pdf_sha1) :=
  ⟨by decide, c1_validated_reference_backed .NAME [⟨"t", 0, 2, "s"⟩]
    ⟨.str "yes", [2], "", ""⟩ ⟨"s", 2⟩ (by decide)⟩

/-! ### C3 -/

/-- C3: when the answer value is the negative sentinel appropriate to the
question kind ("N/A", `false` for BOOLEAN, `[]` for NAMES), reference
validation returns the empty list whatever the evidence chunks and the
claimed pages are. -/
theorem c3_negative_answer_no_references (kind : QuestionKind)
    (chunks : List Chunk) (pages : List Int) (analysis summary : String)
    (value : AnswerValue)
    (h : value = .str "N/A" ∨ (kind = .BOOLEAN ∧ value = .bool false) ∨
      (kind = .NAMES ∧ value = .list [])) :
    validate_references kind chunks ⟨value, pages, analysis, summary⟩ = [] := by
  have hneg : isNegativeAnswer kind value = true := by
    rcases h with h | ⟨hk, hv⟩ | ⟨hk, hv⟩
    · subst h; rfl
    · subst hk; subst hv; rfl
    · subst hk; subst hv; rfl
  simp [validate_references, hneg]

/-- Witness for C3 at a concrete input: a BOOLEAN question answered
`False` with nonempty claimed pages and nonempty evidence. -/
theorem c3_witness :
    ((AnswerValue.bool false) = .str "N/A" ∨
      (QuestionKind.BOOLEAN = .BOOLEAN ∧ (AnswerValue.bool false) = .bool false) ∨
      (QuestionKind.BOOLEAN = .NAMES ∧ (AnswerValue.bool false) = .list [])) ∧
    validate_references .BOOLEAN [⟨"t", 0, 3, "s"⟩]
      ⟨.bool false, [3], "", ""⟩ = [] :=
  ⟨by decide,
    c3_negative_answer_no_references .BOOLEAN [⟨"t", 0, 3, "s"⟩] [3] "" ""
      (.bool false) (by decide)⟩

/-! ### C2 -/

/-- Counterexample to C2: two evidence passages from the same page 1, a
positive numeric answer claiming page 1 (a subset of the shown pages) —
validation returns two references with the same page index, not one per
distinct claimed page. -/
theorem c2_counterexample :
    (∀ p ∈ ([1] : List Int), p ∈
      ([⟨"t1", 0, 1, "s"⟩, ⟨"t2", 0, 1, "s"⟩] : List Chunk).map
        Chunk.page_index) ∧
    isNegativeAnswer .NUMBER (.num 7) = false ∧
    validate_references .NUMBER [⟨"t1", 0, 1, "s"⟩, ⟨"t2", 0, 1, "s"⟩]
      ⟨.num 7, [1], "", ""⟩ = [⟨"s", 1⟩, ⟨"s", 1⟩] ∧
    ¬ ((validate_references .NUMBER [⟨"t1", 0, 1, "s"⟩, ⟨"t2", 0, 1, "s"⟩]
      ⟨.num 7, [1], "", ""⟩).map Reference.page_index).Nodup := by
  refine ⟨by decide, rfl, rfl, ?_⟩
  decide

/-- C2 amended: for a non-negative answer with nonempty claimed pages,
validation returns exactly one reference per evidence chunk whose page
index is among the claimed pages, in evidence order; duplicate page
indices appear whenever several shown passages share a claimed page. -/
theorem c2_amended_one_reference_per_matching_chunk (kind : QuestionKind)
    (chunks : List Chunk) (resp : ClientResponse)
    (hneg : isNegativeAnswer kind resp.value = false)
    (hp : resp.relevant_pages ≠ []) :
    validate_references kind chunks resp =
      (chunks.filter
        (fun c => decide (c.page_index ∈ resp.relevant_pages))).map
        (fun c => ⟨c.source, c.page_index⟩) := by
  unfold validate_references
  rw [if_neg hp, if_neg (by simp [hneg])]
  exact filterMap_eq_map_filter _ _ _ chunks (fun c _ => by
    by_cases hc : c.page_index ∈ resp.relevant_pages
    · rw [if_pos hc, if_pos (by simpa using hc)]
    · rw [if_neg hc, if_neg (by simpa using hc)])

/-- Witness for the amended C2 at the counterexample input. -/
theorem c2_amended_witness :
    (isNegativeAnswer .NUMBER
        (⟨.num 7, [1], "", ""⟩ : ClientResponse).value = false ∧
      (⟨.num 7, [1], "", ""⟩ : ClientResponse).relevant_pages ≠ []) ∧
    validate_references .NUMBER [⟨"t1", 0, 1, "s"⟩, ⟨"t2", 0, 1, "s"⟩]
        ⟨.num 7, [1], "", ""⟩ =
      (([⟨"t1", 0, 1, "s"⟩, ⟨"t2", 0, 1, "s"⟩] : List Chunk).filter
        (fun c => decide (c.page_index ∈
          (⟨.num 7, [1], "", ""⟩ : ClientResponse).relevant_pages))).map
        (fun c => ⟨c.source, c.page_index⟩) :=
  ⟨⟨rfl, by decide⟩,
    c2_amended_one_reference_per_matching_chunk .NUMBER
      [⟨"t1", 0, 1, "s"⟩, ⟨"t2", 0, 1, "s"⟩] ⟨.num 7, [1], "", ""⟩ rfl
      (by decide)⟩

/-! ### C10 -/

/-- C10: company extraction returns the matching known names in the
insertion order of the company map (the order the loop iterates
`company_map.keys()`), not in their order of appearance in the question —
captured by the filter characterisation over the key list, and
demonstrated on a question that mentions the companies in the opposite
order of the mapping rows. -/
theorem c10_extraction_in_map_order :
    (∀ (company_map : List (String × String)) (text : String),
      extract_companies company_map text =
        ((company_map.map (·.1)).filter (fun c => pyIn c text)).map
          stripQuotes) ∧
    extract_companies [("B Corp", "1"), ("A Inc", "2")]
      "Compare A Inc and B Corp" = ["B Corp", "A Inc"] := by
  constructor
  · intro company_map text
    unfold extract_companies
    induction company_map.map (·.1) with
    | nil => rfl
    | cons c rest ih =>
      by_cases hc : pyIn c text
      · simp [extract_loop, hc, ih, List.filter_cons]
      · simp [extract_loop, hc, ih, List.filter_cons]
  · rfl

/-! ### Comparative loop structure -/

/-- Structure of a successful comparative loop: there is one successful
`handle_single` result per company, in input order; the summary lines are
the per-company lines in input order; the references are the
concatenation of the per-company reference lists in input order. -/
theorem comparative_loop_spec (env : Env) (f : String → String) :
    ∀ (cs : List String) (lines : List String) (refs : List Reference),
      comparative_loop env f cs = .ok (lines, refs) →
      ∃ res : List (ClientResponse × List Reference),
        cs.map (fun c => handle_single env c (f c) .NUMBER) =
            res.map Except.ok ∧
          lines = (cs.zip res).map (fun p => summary_line p.1 p.2.1) ∧
          refs = (res.map (·.2)).join := by
  intro cs
  induction cs with
  | nil =>
    intro lines refs h
    simp only [comparative_loop] at h
    obtain ⟨h1, h2⟩ := Prod.mk.injEq .. ▸ (Except.ok.injEq .. ▸ h)
    exact ⟨[], by simp, by simp [← h1], by simp [← h2]⟩
  | cons c rest ih =>
    intro lines refs h
    simp only [comparative_loop] at h
    cases hs : handle_single env c (f c) .NUMBER with
    | error e => rw [hs] at h; cases h
    | ok pr =>
      obtain ⟨ans, refs1⟩ := pr
      rw [hs] at h
      cases hloop : comparative_loop env f rest with
      | error e => rw [hloop] at h; cases h
      | ok pr2 =>
        obtain ⟨lines2, refs2⟩ := pr2
        rw [hloop] at h
        obtain ⟨res, hmap, hlines, hrefs⟩ := ih lines2 refs2 hloop
        cases h
        exact ⟨(ans, refs1) :: res, by simp [hs, hmap], by simp [hlines],
          by simp [hrefs]⟩

/-- A successful comparative loop implies every company's sub-call
succeeded. -/
theorem comparative_loop_all_ok (env : Env) (f : String → String)
    (cs : List String) (lines : List String) (refs : List Reference)
    (h : comparative_loop env f cs = .ok (lines, refs)) :
    ∀ c ∈ cs, ∃ v, handle_single env c (f c) .NUMBER = .ok v := by
  obtain ⟨res, hmap, -, -⟩ := comparative_loop_spec env f cs lines refs h
  intro c hc
  obtain ⟨i, hci⟩ := List.mem_iff_get.mp hc
  have hlen : cs.length = res.length := by
    have := congrArg List.length hmap
    simpa using this
  have hival := congrArg (fun l => l.get? i.val) hmap
  simp only [List.get?_map] at hival
  rw [← hci]
  have hgetcs : cs.get? i.val = some (cs.get i) := List.get?_eq_get i.isLt
  have hi2 : i.val < res.length := hlen ▸ i.isLt
  have hgetres : res.get? i.val = some (res.get ⟨i.val, hi2⟩) :=
    List.get?_eq_get hi2
  rw [hgetcs, hgetres] at hival
  exact ⟨res.get ⟨i.val, hi2⟩, by simpa using hival⟩

/-! ### Success lemmas: which collaborator failures are absorbed -/

/-- If the reranker call succeeds with enough scores, `scored_candidates`
succeeds: vector-search and Chroma failures were already absorbed. -/
theorem scored_candidates_ok (env : Env) (query sha1 : String)
    (fetch_k : Nat)
    (h : ∀ ps, ∃ ss, env.reranker_predict ps = .ok ss ∧
      ps.length ≤ ss.length) :
    ∃ out, scored_candidates env query sha1 fetch_k = .ok out := by
  simp only [scored_candidates]
  by_cases hc : merge_candidates (fetch_bm25_candidates env query sha1 fetch_k)
      (fetch_vector_candidates env query sha1 fetch_k) = []
  · rw [if_pos hc]
    exact ⟨[], rfl⟩
  · rw [if_neg hc]
    obtain ⟨ss, hss, hlen⟩ := h
      ((merge_candidates (fetch_bm25_candidates env query sha1 fetch_k)
        (fetch_vector_candidates env query sha1 fetch_k)).map
        (fun d => (query, d.page_content)))
    have hlen2 : ¬ (ss.length < (merge_candidates
        (fetch_bm25_candidates env query sha1 fetch_k)
        (fetch_vector_candidates env query sha1 fetch_k)).length) := by
      rw [Nat.not_lt]
      simpa using hlen
    simp only [hss, if_neg hlen2]
    exact ⟨_, rfl⟩

/-- Under the reranker contract, `retrieve` never fails. -/
theorem retrieve_ok (env : Env) (query company : String)
    (top_k fetch_k : Nat)
    (h : ∀ ps, ∃ ss, env.reranker_predict ps = .ok ss ∧
      ps.length ≤ ss.length) :
    ∃ out, retrieve env query company top_k fetch_k = .ok out := by
  cases hget : pyDictGet env.company_map company with
  | none =>
    simp only [retrieve, hget]
    exact ⟨[], rfl⟩
  | some sha1 =>
    by_cases hsha : sha1 = ""
    · simp only [retrieve, hget, if_pos hsha]
      exact ⟨[], rfl⟩
    · obtain ⟨sc, hsc⟩ := scored_candidates_ok env query sha1 fetch_k h
      simp only [retrieve, hget, if_neg hsha, hsc]
      exact ⟨_, rfl⟩

/-- Under the reranker contract, `handle_single` never fails. -/
theorem handle_single_ok (env : Env) (company query : String)
    (kind : QuestionKind)
    (h : ∀ ps, ∃ ss, env.reranker_predict ps = .ok ss ∧
      ps.length ≤ ss.length) :
    ∃ v, handle_single env company query kind = .ok v := by
  obtain ⟨chunks, hch⟩ := retrieve_ok env (takeUntilQmark query) company 5 30 h
  by_cases hc : chunks = []
  · simp only [handle_single, hch, if_pos hc]
    exact ⟨_, rfl⟩
  · simp only [handle_single, hch, if_neg hc]
    exact ⟨_, rfl⟩

/-- Under the reranker contract, the comparative loop never fails. -/
theorem comparative_loop_ok (env : Env) (f : String → String)
    (cs : List String)
    (h : ∀ ps, ∃ ss, env.reranker_predict ps = .ok ss ∧
      ps.length ≤ ss.length) :
    ∃ v, comparative_loop env f cs = .ok v := by
  induction cs with
  | nil => exact ⟨([], []), rfl⟩
  | cons c rest ih =>
    obtain ⟨pr, hs⟩ := handle_single_ok env c (f c) .NUMBER h
    obtain ⟨ans, refs1⟩ := pr
    obtain ⟨pr2, hr⟩ := ih
    obtain ⟨lines, refs2⟩ := pr2
    simp only [comparative_loop]
    rw [hs, hr]
    exact ⟨_, rfl⟩

/-- Under the reranker contract, `handle_comparative` never fails. -/
theorem handle_comparative_ok (env : Env) (cs : List String) (q : String)
    (h : ∀ ps, ∃ ss, env.reranker_predict ps = .ok ss ∧
      ps.length ≤ ss.length) :
    ∃ v, handle_comparative env cs q = .ok v := by
  unfold handle_comparative
  obtain ⟨pr, hl⟩ := comparative_loop_ok env (rephrased_query env q cs) cs h
  obtain ⟨lines, refs⟩ := pr
  rw [hl]
  exact ⟨_, rfl⟩

/-! ### C4 -/

/-- Environment for the C4 counterexample: one known company, a healthy
vector search returning one passage, and a reranker whose scoring call
raises. -/
def envRerankerDown : Env where
  company_map := [("A", "sha")]
  vector_search := fun _ _ _ => .ok [⟨"t", 1, "sha"⟩]
  chroma_get := fun _ => .error "down"
  bm25_get_scores := fun _ _ => []
  reranker_predict := fun _ => .error "boom"
  llm_answer := fun _ _ k => get_fallback_response k "x"
  llm_rephrase := fun _ _ => []

/-- Counterexample to C4: a reranker-scoring exception is not caught by
`retrieve`, `_handle_single` or `answer_question` — the entry point fails
instead of returning a well-typed fallback result. -/
theorem c4_counterexample :
    answer_question envRerankerDown "A?" .NUMBER = .error "boom" := rfl

/-- C4 amended: failures of semantic search, the lexical-index fetch, the
answering call and the decomposition call are all absorbed, but a failure
of reranker scoring propagates; whenever the reranker succeeds (with at
least one score per pair, the library's contract), the router entry point
always returns a well-typed result, whatever the other collaborators do. -/
theorem c4_amended_total_modulo_reranker (env : Env)
    (h : ∀ ps, ∃ ss, env.reranker_predict ps = .ok ss ∧
      ps.length ≤ ss.length)
    (text : String) (kind : QuestionKind) :
    ∃ r, answer_question env text kind = .ok r := by
  rcases hcs : extract_companies env.company_map text with - | ⟨c, - | ⟨c2, rest⟩⟩
  · simp only [answer_question, hcs]
    exact ⟨_, rfl⟩
  · obtain ⟨pr, hs⟩ := handle_single_ok env c text kind h
    obtain ⟨ans, refs⟩ := pr
    simp only [answer_question, hcs, hs]
    exact ⟨_, rfl⟩
  · obtain ⟨pr, hc⟩ := handle_comparative_ok env (c :: c2 :: rest) text h
    obtain ⟨ans, refs⟩ := pr
    simp only [answer_question, hcs, hc]
    exact ⟨_, rfl⟩

/-- Environment in which every collaborator other than the reranker
degrades (vector search empty, Chroma down, LLM falls back): all those
failures are absorbed. -/
def envDegraded : Env where
  company_map := [("A", "sa"), ("B", "sb")]
  vector_search := fun _ _ _ => .ok []
  chroma_get := fun _ => .error "down"
  bm25_get_scores := fun _ _ => []
  reranker_predict := fun ps => .ok (ps.map (fun _ => 0))
  llm_answer := fun _ _ k => get_fallback_response k "x"
  llm_rephrase := fun _ _ => []

/-- Witness for the amended C4 at a concrete input. -/
theorem c4_amended_witness :
    (∀ ps, ∃ ss, envDegraded.reranker_predict ps = .ok ss ∧
      ps.length ≤ ss.length) ∧
    ∃ r, answer_question envDegraded "A?" .NUMBER = .ok r := by
  have hcontract : ∀ ps, ∃ ss, envDegraded.reranker_predict ps = .ok ss ∧
      ps.length ≤ ss.length :=
    fun ps => ⟨ps.map (fun _ => 0), rfl, by simp⟩
  exact ⟨hcontract, c4_amended_total_modulo_reranker envDegraded hcontract
    "A?" .NUMBER⟩

/-! ### C5 -/

/-- Environment for the C5 counterexample: company A's sub-pipeline
degrades gracefully (no candidates, fallback answer), while company B's
sub-pipeline hits the reranker and fails. -/
def envOneBadEntity : Env where
  company_map := [("A", "sa"), ("B", "sb")]
  vector_search := fun _ sha1 _ =>
    if sha1 == "sb" then .ok [⟨"tb", 2, "sb"⟩] else .ok []
  chroma_get := fun _ => .error "down"
  bm25_get_scores := fun _ _ => []
  reranker_predict := fun _ => .error "boom"
  llm_answer := fun _ _ k => get_fallback_response k "x"
  llm_rephrase := fun _ _ => []

/-- Counterexample to C5: company A's sub-pipeline succeeds, company B's
raises — and instead of excluding B and continuing, the whole comparative
call aborts with B's error. -/
theorem c5_counterexample :
    (∃ v, handle_single envOneBadEntity "A"
      (rephrased_query envOneBadEntity "q" ["A", "B"] "A") .NUMBER = .ok v) ∧
    handle_comparative envOneBadEntity ["A", "B"] "q" = .error "boom" :=
  ⟨⟨_, rfl⟩, rfl⟩

/-- C5 amended: there is no per-entity failure isolation in the
comparative path — an unrecoverable error in any entity's sub-pipeline
aborts the whole comparison, so a successful comparative result implies
every entity's sub-call succeeded. -/
theorem c5_amended_no_partial_failure_isolation (env : Env)
    (companies : List String) (query : String)
    (r : ClientResponse × List Reference)
    (h : handle_comparative env companies query = .ok r) :
    ∀ c ∈ companies, ∃ v,
      handle_single env c (rephrased_query env query companies c) .NUMBER
        = .ok v := by
  unfold handle_comparative at h
  cases hloop : comparative_loop env (rephrased_query env query companies)
      companies with
  | error e => rw [hloop] at h; cases h
  | ok pr =>
    obtain ⟨lines, refs⟩ := pr
    exact comparative_loop_all_ok env _ companies lines refs hloop

/-- Witness for the amended C5: both entities' sub-pipelines succeed in
the degraded environment, and so does the comparative call. -/
theorem c5_amended_witness :
    (handle_comparative envDegraded ["A", "B"] "q"
      = .ok (⟨.str "N/A", [], "", "x"⟩, [])) ∧
    ∀ c ∈ ["A", "B"], ∃ v,
      handle_single envDegraded c
        (rephrased_query envDegraded "q" ["A", "B"] c) .NUMBER = .ok v :=
  ⟨rfl, c5_amended_no_partial_failure_isolation envDegraded ["A", "B"] "q"
    (⟨.str "N/A", [], "", "x"⟩, []) rfl⟩

/-! ### C8 and C9 -/

/-- Environment with one company whose numeric sub-answer has a nonempty
reasoning summary and one validated reference, and whose final comparative
synthesis returns "N/A". -/
def envEcho : Env where
  company_map := [("A", "sa")]
  vector_search := fun _ _ _ => .ok [⟨"txt", 1, "sa"⟩]
  chroma_get := fun _ => .error "down"
  bm25_get_scores := fun _ _ => []
  reranker_predict := fun ps => .ok (ps.map (fun _ => 0))
  llm_answer := fun _ _ k =>
    if k = .COMPARATIVE then ⟨.str "N/A", [], "", ""⟩
    else ⟨.str "5", [1], "", "ZREASONZ"⟩
  llm_rephrase := fun _ _ => []

/-- Counterexample to C8: the sub-answer's reasoning summary is
"ZREASONZ", yet the assembled summary line contains only the company name
and the extracted value — the reasoning never appears in the summary
block. -/
theorem c8_counterexample :
    handle_single envEcho "A" (rephrased_query envEcho "q" ["A"] "A") .NUMBER
        = .ok (⟨.str "5", [1], "", "ZREASONZ"⟩, [⟨"sa", 1⟩]) ∧
    comparative_loop envEcho (rephrased_query envEcho "q" ["A"]) ["A"]
        = .ok (["Company: A\nExtracted Data: 5\n"], [⟨"sa", 1⟩]) ∧
    pyIn "ZREASONZ" "Company: A\nExtracted Data: 5\n" = false :=
  ⟨rfl, rfl, by decide⟩

/-- C8 amended: on success the comparative path produces one summary line
per entity in input entity order, each line carrying the entity name and
the extracted value (but not the reasoning), the returned references are
the concatenation of the per-entity validated references, and the final
answer is the synthesis call over the joined summary block. -/
theorem c8_amended_summary_block (env : Env) (companies : List String)
    (query : String) (final : ClientResponse) (refs : List Reference)
    (h : handle_comparative env companies query = .ok (final, refs)) :
    ∃ res : List (ClientResponse × List Reference),
      companies.map (fun c =>
          handle_single env c (rephrased_query env query companies c) .NUMBER)
        = res.map Except.ok ∧
      refs = (res.map (·.2)).join ∧
      final = env.llm_answer query (String.intercalate "\n"
        ((companies.zip res).map (fun p => summary_line p.1 p.2.1)))
        .COMPARATIVE := by
  unfold handle_comparative at h
  cases hloop : comparative_loop env (rephrased_query env query companies)
      companies with
  | error e => rw [hloop] at h; cases h
  | ok pr =>
    obtain ⟨lines, refs'⟩ := pr
    rw [hloop] at h
    obtain ⟨res, hmap, hlines, hrefs⟩ :=
      comparative_loop_spec env _ companies lines refs' hloop
    simp only [Except.ok.injEq, Prod.mk.injEq] at h
    obtain ⟨hfinal, hrefs2⟩ := h
    refine ⟨res, hmap, ?_, ?_⟩
    · rw [← hrefs2, hrefs]
    · rw [← hfinal, hlines]

/-- Witness for the amended C8 at a concrete comparative call. -/
theorem c8_amended_witness :
    (handle_comparative envEcho ["A"] "q"
      = .ok (⟨.str "N/A", [], "", ""⟩, [⟨"sa", 1⟩])) ∧
    ∃ res : List (ClientResponse × List Reference),
      (["A"].map (fun c =>
          handle_single envEcho c (rephrased_query envEcho "q" ["A"] c)
            .NUMBER))
        = res.map Except.ok ∧
      ([(⟨"sa", 1⟩ : Reference)]) = (res.map (·.2)).join ∧
      (⟨.str "N/A", [], "", ""⟩ : ClientResponse)
        = envEcho.llm_answer "q" (String.intercalate "\n"
          ((["A"].zip res).map (fun p => summary_line p.1 p.2.1)))
          .COMPARATIVE :=
  ⟨rfl, c8_amended_summary_block envEcho ["A"] "q" ⟨.str "N/A", [], "", ""⟩
    [⟨"sa", 1⟩] rfl⟩

/-- C9: the comparative handler attaches the aggregated per-entity
validated references unconditionally — in particular when the final
synthesized value is the negative sentinel "N/A", the references are
still those collected by the per-entity loop, not cleared. -/
theorem c9_na_comparative_keeps_references (env : Env)
    (companies : List String) (query : String) (final : ClientResponse)
    (refs : List Reference)
    (h : handle_comparative env companies query = .ok (final, refs))
    (_hna : final.value = .str "N/A") :
    ∃ lines, comparative_loop env (rephrased_query env query companies)
      companies = .ok (lines, refs) := by
  unfold handle_comparative at h
  cases hloop : comparative_loop env (rephrased_query env query companies)
      companies with
  | error e => rw [hloop] at h; cases h
  | ok pr =>
    obtain ⟨lines, refs'⟩ := pr
    rw [hloop] at h
    simp only [Except.ok.injEq, Prod.mk.injEq] at h
    exact ⟨lines, by rw [h.2]⟩


/-- Witness for C9: final comparative value is "N/A" and the attached
references are the (nonempty) per-entity references. -/
theorem c9_witness :
    (handle_comparative envEcho ["A"] "q"
      = .ok (⟨.str "N/A", [], "", ""⟩, [⟨"sa", 1⟩])) ∧
    (⟨.str "N/A", [], "", ""⟩ : ClientResponse).value = .str "N/A" ∧
    ([(⟨"sa", 1⟩ : Reference)]) ≠ [] ∧
    ∃ lines, comparative_loop envEcho (rephrased_query envEcho "q" ["A"])
      ["A"] = .ok (lines, [⟨"sa", 1⟩]) :=
  ⟨rfl, rfl, by decide,
    c9_na_comparative_keeps_references envEcho ["A"] "q"
      ⟨.str "N/A", [], "", ""⟩ [⟨"sa", 1⟩] rfl rfl⟩

/-! ### C6 -/

/-- C6: a successful `retrieve` returns at most `top_k` records, sorted by
score descending (any earlier record's score is at least any later one's),
and every record is the formatting of a reranked candidate: passage text,
score rounded to 4 decimal places, page index and document identifier
taken from that candidate. -/
theorem c6_retrieve_sorted_bounded (env : Env) (query company : String)
    (top_k fetch_k : Nat) (out : List Chunk)
    (h : retrieve env query company top_k fetch_k = .ok out) :
    out.length ≤ top_k ∧
    List.Pairwise (fun a b => b.score ≤ a.score) out ∧
    ∀ r ∈ out, ∃ sha1 scored p,
      pyDictGet env.company_map company = some sha1 ∧
      scored_candidates env query sha1 fetch_k = .ok scored ∧
      p ∈ scored ∧ r = format_chunk p := by
  unfold retrieve at h
  cases hget : pyDictGet env.company_map company with
  | none =>
    simp only [hget] at h
    cases h
    exact ⟨by simp, by simp, by simp⟩
  | some sha1 =>
    simp only [hget] at h
    by_cases hsha : sha1 = ""
    · rw [if_pos hsha] at h
      cases h
      exact ⟨by simp, by simp, by simp⟩
    · rw [if_neg hsha] at h
      cases hsc : scored_candidates env query sha1 fetch_k with
      | error e => simp only [hsc] at h; cases h
      | ok scored =>
        simp only [hsc, Except.ok.injEq] at h
        subst h
        have hsorted : List.Pairwise scoreDesc
            (List.insertionSort scoreDesc scored) :=
          List.sorted_insertionSort scoreDesc scored
        have htake : List.Pairwise scoreDesc
            ((List.insertionSort scoreDesc scored).take top_k) :=
          List.Pairwise.sublist (List.take_sublist top_k _) hsorted
        refine ⟨?_, ?_, ?_⟩
        · simp [List.length_take]
        · rw [List.pairwise_map]
          exact htake.imp (fun hab => round4_mono hab)
        · intro r hr
          rw [List.mem_map] at hr
          obtain ⟨p, hp, hpr⟩ := hr
          have hp2 : p ∈ List.insertionSort scoreDesc scored :=
            List.mem_of_mem_take hp
          have hp3 : p ∈ scored :=
            (List.perm_insertionSort scoreDesc scored).subset hp2
          exact ⟨sha1, scored, p, rfl, hsc, hp3, hpr.symm⟩

/-- Witness for C6: a concrete retrieve call returning one record. -/
theorem c6_witness :
    (retrieve envEcho "q" "A" 5 30 = .ok [⟨"txt", round4 0, 1, "sa"⟩]) ∧
    (([(⟨"txt", round4 0, 1, "sa"⟩ : Chunk)]).length ≤ 5 ∧
      List.Pairwise (fun a b => b.score ≤ a.score)
        [(⟨"txt", round4 0, 1, "sa"⟩ : Chunk)] ∧
      ∀ r ∈ [(⟨"txt", round4 0, 1, "sa"⟩ : Chunk)], ∃ sha1 scored p,
        pyDictGet envEcho.company_map "A" = some sha1 ∧
        scored_candidates envEcho "q" sha1 30 = .ok scored ∧
        p ∈ scored ∧ r = format_chunk p) :=
  ⟨rfl, c6_retrieve_sorted_bounded envEcho "q" "A" 5 30
    [⟨"txt", round4 0, 1, "sa"⟩] rfl⟩

/-! ### C7 -/

/-- Selection structure of the BM25 fetch: taking the stably
descending-sorted index list, cutting at `k` and dropping non-positive
scores yields an index list of length at most `k`, with positive scores
only, pairwise ordered by score descending with ties broken by the
original (ascending index) order. -/
theorem bm25_selection (S : List ℚ) (k : Nat) (g : Nat → Option Document)
    (f : Nat → Document)
    (hg : ∀ i, i < S.length →
      g i = if decide (0 < scoreAt S i) then some (f i) else none) :
    ∃ idxs : List Nat,
      ((List.insertionSort (bm25Before S) (List.range S.length)).take
        k).filterMap g = idxs.map f ∧
      idxs.length ≤ k ∧
      (∀ i ∈ idxs, 0 < scoreAt S i) ∧
      idxs.Pairwise (fun i j => scoreAt S j < scoreAt S i ∨
        (scoreAt S i = scoreAt S j ∧ i < j)) := by
  have hmem : ∀ i ∈ (List.insertionSort (bm25Before S)
      (List.range S.length)).take k, i < S.length := fun i hi =>
    List.mem_range.mp
      ((List.perm_insertionSort (bm25Before S) (List.range S.length)).subset
        (List.mem_of_mem_take hi))
  refine ⟨((List.insertionSort (bm25Before S) (List.range S.length)).take
    k).filter (fun i => decide (0 < scoreAt S i)), ?_, ?_, ?_, ?_⟩
  · exact filterMap_eq_map_filter g f _ _ (fun i hi => hg i (hmem i hi))
  · exact le_trans (List.length_filter_le _ _) (List.length_take_le _ _)
  · intro i hi
    simpa using List.of_mem_filter hi
  · have h1 : ((List.insertionSort (bm25Before S)
        (List.range S.length)).take k).Pairwise (bm25Before S) :=
      List.Pairwise.sublist (List.take_sublist _ _)
        (List.sorted_insertionSort (bm25Before S) (List.range S.length))
    have h2 : (((List.insertionSort (bm25Before S)
        (List.range S.length)).take k).filter
        (fun i => decide (0 < scoreAt S i))).Pairwise (bm25Before S) :=
      List.Pairwise.sublist (List.filter_sublist _) h1
    have hnd : (((List.insertionSort (bm25Before S)
        (List.range S.length)).take k).filter
        (fun i => decide (0 < scoreAt S i))).Nodup :=
      List.Nodup.sublist (List.filter_sublist _)
        (List.Nodup.sublist (List.take_sublist _ _)
          ((List.perm_insertionSort (bm25Before S)
            (List.range S.length)).nodup_iff.mpr
            (List.nodup_range S.length)))
    refine (h2.and hnd).imp ?_
    intro i j hij
    obtain ⟨hb, hne⟩ := hij
    rcases hb with hlt | ⟨heq, hle⟩
    · exact Or.inl hlt
    · exact Or.inr ⟨heq, lt_of_le_of_ne hle hne⟩

/-- C7: the BM25 candidate fetch scores the query tokenized with the same
`tokenize` used for the corpus, returns at most `fetch_k` passages, every
returned passage has a strictly positive BM25 score, and the passages are
ordered by score descending with ties broken by original passage order.
The length hypotheses are the BM25 library contract
(`len(scores) = len(corpus)`) and the Chroma contract
(`len(metadatas) = len(documents)`). -/
theorem c7_bm25_fetch_contract (env : Env) (query sha1 : String)
    (fetch_k : Nat) (raw_chunks : List String) (metadatas : List ChunkMeta)
    (scores : List ℚ)
    (hget : get_bm25_index env sha1 = some (raw_chunks, metadatas))
    (hS : scores = env.bm25_get_scores (raw_chunks.map tokenize)
      (tokenize query))
    (hlen : scores.length ≤ raw_chunks.length)
    (hlen2 : scores.length ≤ metadatas.length) :
    ∃ idxs : List Nat,
      fetch_bm25_candidates env query sha1 fetch_k = idxs.map (fun i =>
        ⟨(raw_chunks.get? i).getD "",
          ((metadatas.get? i).getD ⟨0, ""⟩).page_index,
          ((metadatas.get? i).getD ⟨0, ""⟩).source⟩) ∧
      idxs.length ≤ fetch_k ∧
      (∀ i ∈ idxs, 0 < scoreAt scores i) ∧
      idxs.Pairwise (fun i j => scoreAt scores j < scoreAt scores i ∨
        (scoreAt scores i = scoreAt scores j ∧ i < j)) := by
  subst hS
  have hfetch : fetch_bm25_candidates env query sha1 fetch_k =
      ((List.insertionSort
        (bm25Before (env.bm25_get_scores (raw_chunks.map tokenize)
          (tokenize query)))
        (List.range (env.bm25_get_scores (raw_chunks.map tokenize)
          (tokenize query)).length)).take fetch_k).filterMap
        (fun idx => if scoreAt (env.bm25_get_scores
            (raw_chunks.map tokenize) (tokenize query)) idx ≤ 0 then none
          else
            match raw_chunks.get? idx, metadatas.get? idx with
            | some t, some m => some ⟨t, m.page_index, m.source⟩
            | _, _ => none) := by
    simp only [fetch_bm25_candidates, hget]
  rw [hfetch]
  refine bm25_selection _ fetch_k _ _ ?_
  intro i hi
  obtain ⟨t, ht⟩ : ∃ t, raw_chunks.get? i = some t :=
    ⟨_, List.get?_eq_get (lt_of_lt_of_le hi hlen)⟩
  obtain ⟨m, hm⟩ : ∃ m, metadatas.get? i = some m :=
    ⟨_, List.get?_eq_get (lt_of_lt_of_le hi hlen2)⟩
  by_cases hpos : 0 < scoreAt (env.bm25_get_scores (raw_chunks.map tokenize)
      (tokenize query)) i
  · rw [if_neg (not_le.mpr hpos), ht, hm,
      if_pos (by simpa using hpos)]
    rfl
  · rw [if_pos (not_lt.mp hpos), if_neg (by simpa using hpos)]

/-- Environment for the C7 witness: Chroma holds one passage for the
document, and the BM25 scorer gives every passage score 2. -/
def envBM25 : Env where
  company_map := [("A", "sa")]
  vector_search := fun _ _ _ => .ok []
  chroma_get := fun _ => .ok (["alpha beta"], [⟨3, "sa"⟩])
  bm25_get_scores := fun corpus _ => corpus.map (fun _ => 2)
  reranker_predict := fun ps => .ok (ps.map (fun _ => 0))
  llm_answer := fun _ _ k => get_fallback_response k "x"
  llm_rephrase := fun _ _ => []

/-- Witness for C7 at a concrete document and query. -/
theorem c7_witness :
    (get_bm25_index envBM25 "sa" = some (["alpha beta"], [⟨3, "sa"⟩])) ∧
    (([2] : List ℚ) = envBM25.bm25_get_scores
      ((["alpha beta"] : List String).map tokenize) (tokenize "q")) ∧
    (([2] : List ℚ).length ≤ (["alpha beta"] : List String).length) ∧
    (([2] : List ℚ).length ≤ ([⟨3, "sa"⟩] : List ChunkMeta).length) ∧
    ∃ idxs : List Nat,
      fetch_bm25_candidates envBM25 "q" "sa" 30 = idxs.map (fun i =>
        ⟨((["alpha beta"] : List String).get? i).getD "",
          ((([(⟨3, "sa"⟩ : ChunkMeta)]).get? i).getD ⟨0, ""⟩).page_index,
          ((([(⟨3, "sa"⟩ : ChunkMeta)]).get? i).getD ⟨0, ""⟩).source⟩) ∧
      idxs.length ≤ 30 ∧
      (∀ i ∈ idxs, 0 < scoreAt [2] i) ∧
      idxs.Pairwise (fun i j => scoreAt [2] j < scoreAt [2] i ∨
        (scoreAt [2] i = scoreAt [2] j ∧ i < j)) :=
  ⟨rfl, rfl, by decide, by decide,
    c7_bm25_fetch_contract envBM25 "q" "sa" 30 ["alpha beta"] [⟨3, "sa"⟩]
      [2] rfl rfl (by decide) (by decide)⟩
